import Mathlib

/-!
Verification of the COBOT config-tester core against its specification.

The source is a Svelte/Tauri frontend.  The shallow embedding below models:
* `src/src/lib/JointControl.svelte` — per-joint command dispatch (`moveTo`,
  `stop`) and input validation (`angleInputValid`, `speedInputValid`);
* `src/src/App.svelte` — the joint table, the telemetry polling loop
  (`get_angles` on a 100 ms interval) and the `init` failure handler;
* `src/unnamed/part_000` — two earlier variants of `App.svelte`: the first
  retries `init` after 1000 ms on failure, the second polls `get_position`
  unconditionally; both shadow the outer `angles` array in their polling
  callback.

JavaScript numbers are modelled as `Int` (every operation involved is an
order comparison or an assignment, so the embedding is exact on integral
inputs); `null` inputs as `Option Int`; a backend round trip as an
`Except String Unit` response supplied to the step function; an absent or
non-array JSON payload by a dedicated constructor.
-/

namespace Cobot

/-- Joint count: `JOINTS.length` in `App.svelte` (ids 0..5). -/
def numJoints : Nat := 6

/-- Telemetry polling period in `App.svelte` (`setInterval(..., 100)`). -/
def pollIntervalMs : Nat := 100

/-- The props of `JointControl.svelte` that carry the per-joint bounds,
with their declared defaults (`minAngle = -180`, `maxAngle = 180`,
`minSpeed = 0`, `maxSpeed = 180`). -/
structure JointCfg where
  minAngle : Int := -180
  maxAngle : Int := 180
  minSpeed : Int := 0
  maxSpeed : Int := 180
deriving Repr, DecidableEq

/-- App.svelte mounts each `JointControl` with only `id`, `name` and
`angle`, so every joint keeps the default bounds. -/
def appJointCfg : JointCfg := {}

/-- Reactive flag `$: angleInputValid = angleInput !== null && angleInput >= minAngle &&
angleInput <= maxAngle;` (JointControl.svelte line 21). -/
def angleInputValid (cfg : JointCfg) (angleInput : Option Int) : Bool :=
  match angleInput with
  | none => false
  | some a => cfg.minAngle ≤ a && a ≤ cfg.maxAngle

/-- Reactive flag `$: speedInputValid = speedInput !== null && speedInput >= minSpeed &&
speedInput <= maxSpeed;` (JointControl.svelte line 22). -/
def speedInputValid (cfg : JointCfg) (speedInput : Option Int) : Bool :=
  match speedInput with
  | none => false
  | some s => cfg.minSpeed ≤ s && s ≤ cfg.maxSpeed

/-- The mutable fields of one `JointControl` instance: the `angle` prop
(measured angle, bound to `angles[id]` in App.svelte) and the commanded
`targetAngle` / `targetSpeed`, all initialised to 0. -/
structure JCState where
  angle : Int := 0
  targetAngle : Int := 0
  targetSpeed : Int := 0
deriving Repr, DecidableEq

def initJC : JCState := {}

/-- Derived flag `$: moving = targetAngle != angle;` (JointControl.svelte line 23). -/
def moving (s : JCState) : Bool := s.targetAngle != s.angle

/-- Outcome of one command dispatch: the component state afterwards, whether
`invoke` reached the backend, and the error delivered to the catch handler
(if any). -/
structure CmdOutcome where
  state : JCState
  contacted : Bool
  surfacedError : Option String
deriving Repr, DecidableEq

/-- Function `JointControl.moveTo` (lines 31-41): returns immediately when either
argument is `null`; otherwise invokes `move_joint`; when the promise
resolves it sets `targetAngle = angle; targetSpeed = speed`; when it
rejects, the catch handler receives the error and the state is unchanged. -/
def moveTo (s : JCState) (angle speed : Option Int) (resp : Except String Unit) :
    CmdOutcome :=
  match angle, speed with
  | some a, some sp =>
    match resp with
    | .ok _ => ⟨{ s with targetAngle := a, targetSpeed := sp }, true, none⟩
    | .error e => ⟨s, true, some e⟩
  | _, _ => ⟨s, false, none⟩

/-- The only call sites of `moveTo` are the form's `on:submit` handler, which
runs `moveTo(angleInput, speedInput)` only `if (angleInputValid &&
speedInputValid)` (line 65), and the Submit button, which is `disabled`
unless both flags hold (lines 94-98).  `submitMove` is that guarded path. -/
def submitMove (cfg : JointCfg) (s : JCState) (angleInput speedInput : Option Int)
    (resp : Except String Unit) : CmdOutcome :=
  if angleInputValid cfg angleInput && speedInputValid cfg speedInput then
    moveTo s angleInput speedInput resp
  else ⟨s, false, none⟩

/-- Function `JointControl.stop` (lines 46-55): unconditionally invokes `stop_joint`;
on resolution sets `targetAngle = 0; targetSpeed = 0`; on rejection the
catch handler receives the error and the state is unchanged.  The function
itself never inspects `moving` (only the STOP button's `disabled` attribute
does, line 114). -/
def stopJoint (s : JCState) (resp : Except String Unit) : CmdOutcome :=
  match resp with
  | .ok _ => ⟨{ s with targetAngle := 0, targetSpeed := 0 }, true, none⟩
  | .error e => ⟨s, true, some e⟩

/-- Outcome of a system-level command: all joint states, backend contact
flag, surfaced error. -/
structure SysOutcome where
  joints : List JCState
  contacted : Bool
  surfacedError : Option String
deriving Repr, DecidableEq

/-- System-level `move_to(joint_id, angle, speed)`: App.svelte mounts one
`JointControl` per entry of `JOINTS` (ids 0..5), so a move command for joint
`j` is the validated submit path of that component; for an id with no
component nothing is dispatched. -/
def sysMoveTo (js : List JCState) (j : Nat) (angleInput speedInput : Option Int)
    (resp : Except String Unit) : SysOutcome :=
  if h : j < js.length then
    let out := submitMove appJointCfg (js.get ⟨j, h⟩) angleInput speedInput resp
    ⟨js.set j out.state, out.contacted, out.surfacedError⟩
  else ⟨js, false, none⟩

/-- System-level `stop(joint_id)`: joint `j`'s component runs `stop`. -/
def sysStop (js : List JCState) (j : Nat) (resp : Except String Unit) : SysOutcome :=
  if h : j < js.length then
    let out := stopJoint (js.get ⟨j, h⟩) resp
    ⟨js.set j out.state, out.contacted, out.surfacedError⟩
  else ⟨js, false, none⟩

/-- Writing back an unmodified element leaves the list unchanged. -/
theorem set_get_self (l : List JCState) (n : Nat) (h : n < l.length) :
    l.set n l[n] = l := by
  induction l generalizing n with
  | nil => simp at h
  | cons hd tl ih =>
    cases n with
    | zero => simp
    | succ m =>
      simp only [List.set_cons_succ, List.getElem_cons_succ]
      exact congrArg (hd :: ·) (ih m (Nat.lt_of_succ_lt_succ h))

/-! ## Telemetry -/

/-- The value delivered to one `get_angles` / `get_position` round trip:
an array payload, a non-array payload (the `Array.isArray` check fails), or
a rejected promise (the catch handler runs). -/
inductive PollResult where
  | arr (xs : List Int)
  | nonArray
  | rejected
deriving Repr, DecidableEq

/-- JavaScript loop `received.forEach((angle, i) => \x7b angles[i] = angle; \x7d)`: element `i` of
the received array is written to index `i` of the target array; writes past
the end extend it (JavaScript array index assignment). -/
def forEachWrite : List Int → List Int → List Int
  | angles, [] => angles
  | [], v :: vs => v :: forEachWrite [] vs
  | _ :: tl, v :: vs => v :: forEachWrite tl vs

/-- The `get_angles` callback in `App.svelte` (lines 43-54): when the payload
is an array, every element is copied into `angles` (then `angles = [...angles]`
re-triggers reactivity, a value-level identity); a non-array payload or a
rejection leaves `angles` untouched.  There is no length check. -/
def getAnglesStep (angles : List Int) (r : PollResult) : List Int :=
  match r with
  | .arr xs => forEachWrite angles xs
  | .nonArray => angles
  | .rejected => angles

theorem forEachWrite_eq_append (xs : List Int) :
    ∀ angles : List Int, forEachWrite angles xs = xs ++ angles.drop xs.length := by
  induction xs with
  | nil => intro angles; simp [forEachWrite]
  | cons v vs ih =>
    intro angles
    cases angles with
    | nil => simp [forEachWrite, ih]
    | cons hd tl => simp [forEachWrite, ih]

/-! ## Whole-system trace model

The joint table of `App.svelte` together with its six `JointControl`
children: the `angles` array feeds each child's `angle` prop
(`angle={angles[joint.id]}`), move/stop commands go through the child's
dispatch functions, telemetry through the polling callback. -/

/-- Propagate the `angles` array into the `angle` prop of each mounted
`JointControl` (positional binding `angle={angles[joint.id]}`).  In every
reachable state `angles` is at least as long as the joint list, so the
second pattern never fires there. -/
def applyAngles : List JCState → List Int → List JCState
  | [], _ => []
  | s :: tl, [] => s :: tl
  | s :: tl, a :: rest => { s with angle := a } :: applyAngles tl rest

/-- One externally triggered operation on the running app: a move command
for joint `j` with the two input-field values and the backend's response, a
stop command for joint `j`, or one telemetry poll completion. -/
inductive Op where
  | move (j : Nat) (angleInput speedInput : Option Int) (resp : Except String Unit)
  | stop (j : Nat) (resp : Except String Unit)
  | poll (r : PollResult)

def stepOp (s : List Int × List JCState) (op : Op) : List Int × List JCState :=
  match op with
  | .move j a sp resp => (s.1, (sysMoveTo s.2 j a sp resp).joints)
  | .stop j resp => (s.1, (sysStop s.2 j resp).joints)
  | .poll r =>
    let angles := getAnglesStep s.1 r
    (angles, applyAngles s.2 angles)

/-- Startup state: `angles` all 0 (`Array(JOINTS.length).fill(0)`), each
`JointControl` with its initial field values. -/
def initSys : List Int × List JCState :=
  (List.replicate numJoints 0, List.replicate numJoints initJC)

def runOps (ops : List Op) : List Int × List JCState := ops.foldl stepOp initSys

/-! ## Validation lemmas -/

theorem angleInputValid_some (cfg : JointCfg) (x : Int) :
    angleInputValid cfg (some x) = true ↔ cfg.minAngle ≤ x ∧ x ≤ cfg.maxAngle := by
  simp [angleInputValid]

theorem speedInputValid_some (cfg : JointCfg) (x : Int) :
    speedInputValid cfg (some x) = true ↔ cfg.minSpeed ≤ x ∧ x ≤ cfg.maxSpeed := by
  simp [speedInputValid]

/-- C1: for every joint `j` and every `move_to(j, angle, speed)`, if `angle`
lies outside `[minAngle, maxAngle]` or `speed` outside `[minSpeed, maxSpeed]`
or `j` is not a known joint id, the call fails validation without contacting
the backend and leaves `targetAngle`/`targetSpeed` of every joint unchanged;
both bounds checks are inclusive, so a value exactly equal to a bound passes
validation. -/
theorem moveTo_validation (js : List JCState) (j : Nat) (a sp : Int)
    (resp : Except String Unit) (hlen : js.length = numJoints)
    (hbad : numJoints ≤ j ∨ a < appJointCfg.minAngle ∨ appJointCfg.maxAngle < a
      ∨ sp < appJointCfg.minSpeed ∨ appJointCfg.maxSpeed < sp) :
    sysMoveTo js j (some a) (some sp) resp = ⟨js, false, none⟩ ∧
    angleInputValid appJointCfg (some appJointCfg.minAngle) = true ∧
    angleInputValid appJointCfg (some appJointCfg.maxAngle) = true ∧
    speedInputValid appJointCfg (some appJointCfg.minSpeed) = true ∧
    speedInputValid appJointCfg (some appJointCfg.maxSpeed) = true := by
  refine ⟨?_, by decide, by decide, by decide, by decide⟩
  by_cases hj : j < js.length
  · have hguard :
        (angleInputValid appJointCfg (some a) && speedInputValid appJointCfg (some sp))
          = false := by
      rcases hbad with hge | h1 | h1 | h1 | h1
      · exact absurd (hlen ▸ hj) (Nat.not_lt.mpr hge)
      all_goals
        simp only [appJointCfg] at h1
        simp only [angleInputValid, speedInputValid, appJointCfg, Bool.and_eq_false_iff,
          decide_eq_false_iff_not, not_le]
        omega
    unfold sysMoveTo
    rw [dif_pos hj]
    unfold submitMove
    rw [hguard]
    simp [set_get_self js j hj]
  · unfold sysMoveTo
    rw [dif_neg hj]

/-- Witness for C1 at the spec's own scenario: `move_to(0, 200, 30)` (200
exceeds the default `maxAngle` 180) is a silent local no-op. -/
theorem moveTo_validation_witness :
    sysMoveTo (List.replicate numJoints initJC) 0 (some 200) (some 30) (Except.ok ()) =
      ⟨List.replicate numJoints initJC, false, none⟩ ∧
    angleInputValid appJointCfg (some appJointCfg.minAngle) = true ∧
    angleInputValid appJointCfg (some appJointCfg.maxAngle) = true ∧
    speedInputValid appJointCfg (some appJointCfg.minSpeed) = true ∧
    speedInputValid appJointCfg (some appJointCfg.maxSpeed) = true :=
  moveTo_validation (List.replicate numJoints initJC) 0 200 30 (Except.ok ())
    (by decide) (Or.inr (Or.inr (Or.inl (by decide))))

/-! ## Commanded-state invariant (C2) -/

/-- A joint's commanded angle is within its bounds whenever it is non-zero. -/
def targetInv (s : JCState) : Prop :=
  s.targetAngle ≠ 0 →
    appJointCfg.minAngle ≤ s.targetAngle ∧ s.targetAngle ≤ appJointCfg.maxAngle

theorem submitMove_targetInv (s : JCState) (a sp : Option Int)
    (resp : Except String Unit) (hs : targetInv s) :
    targetInv (submitMove appJointCfg s a sp resp).state := by
  unfold submitMove
  by_cases h : (angleInputValid appJointCfg a && speedInputValid appJointCfg sp) = true
  · rw [if_pos h]
    rcases Bool.and_eq_true_iff.mp h with ⟨ha, hsv⟩
    cases a with
    | none => simp [angleInputValid] at ha
    | some x =>
      cases sp with
      | none => simp [speedInputValid] at hsv
      | some y =>
        cases resp with
        | ok u =>
          intro _
          exact (angleInputValid_some appJointCfg x).mp ha
        | error e => exact hs
  · rw [if_neg h]; exact hs

theorem stopJoint_targetInv (s : JCState) (resp : Except String Unit)
    (hs : targetInv s) : targetInv (stopJoint s resp).state := by
  cases resp with
  | ok u => intro hne; exact absurd rfl hne
  | error e => exact hs

theorem applyAngles_targetInv (js : List JCState) :
    ∀ angles : List Int, (∀ s ∈ js, targetInv s) →
      ∀ s ∈ applyAngles js angles, targetInv s := by
  induction js with
  | nil => intro angles _ s hmem; simp [applyAngles] at hmem
  | cons hd tl ih =>
    intro angles h s hmem
    cases angles with
    | nil => exact h s hmem
    | cons a rest =>
      simp only [applyAngles] at hmem
      rcases List.mem_cons.mp hmem with he | hm
      · subst he
        intro hne
        exact h hd (List.mem_cons_self hd tl) hne
      · exact ih rest (fun s2 hs2 => h s2 (List.mem_cons_of_mem hd hs2)) s hm

theorem stepOp_targetInv (st : List Int × List JCState) (op : Op)
    (h : ∀ s ∈ st.2, targetInv s) : ∀ s ∈ (stepOp st op).2, targetInv s := by
  cases op with
  | move j a sp resp =>
    intro s hmem
    simp only [stepOp] at hmem
    unfold sysMoveTo at hmem
    by_cases hj : j < st.2.length
    · rw [dif_pos hj] at hmem
      rcases List.mem_or_eq_of_mem_set hmem with hm | he
      · exact h s hm
      · subst he
        exact submitMove_targetInv _ _ _ _ (h _ (List.get_mem st.2 j hj))
    · rw [dif_neg hj] at hmem
      exact h s hmem
  | stop j resp =>
    intro s hmem
    simp only [stepOp] at hmem
    unfold sysStop at hmem
    by_cases hj : j < st.2.length
    · rw [dif_pos hj] at hmem
      rcases List.mem_or_eq_of_mem_set hmem with hm | he
      · exact h s hm
      · subst he
        exact stopJoint_targetInv _ _ (h _ (List.get_mem st.2 j hj))
    · rw [dif_neg hj] at hmem
      exact h s hmem
  | poll r =>
    intro s hmem
    simp only [stepOp] at hmem
    exact applyAngles_targetInv st.2 (getAnglesStep st.1 r) h s hmem

theorem runOps_targetInv (ops : List Op) :
    ∀ st : List Int × List JCState, (∀ s ∈ st.2, targetInv s) →
      ∀ s ∈ (ops.foldl stepOp st).2, targetInv s := by
  induction ops with
  | nil => intro st h; exact h
  | cons op rest ih =>
    intro st h
    exact ih (stepOp st op) (stepOp_targetInv st op h)

/-- C2: after any sequence of operations from startup (moves, stops,
telemetry polls), every joint whose commanded angle is non-zero has it
within `[minAngle, maxAngle]`; no sequence of operations leaves a non-zero
commanded angle out of bounds. -/
theorem commanded_angle_in_bounds (ops : List Op) (s : JCState)
    (hmem : s ∈ (runOps ops).2) (hnz : s.targetAngle ≠ 0) :
    appJointCfg.minAngle ≤ s.targetAngle ∧ s.targetAngle ≤ appJointCfg.maxAngle := by
  have hinit : ∀ s0 ∈ initSys.2, targetInv s0 := by
    intro s0 hs0
    have he : s0 = initJC := List.eq_of_mem_replicate hs0
    subst he
    intro hne
    exact absurd rfl hne
  exact runOps_targetInv ops initSys hinit s hmem hnz

/-- Witness for C2 at the spec's scenario: after a successful
`move_to(2, 45, 30)` from startup, joint 2's commanded state is
`(45, 30)` and 45 lies within the bounds. -/
theorem commanded_angle_in_bounds_witness :
    ({ angle := 0, targetAngle := 45, targetSpeed := 30 } : JCState) ∈
      (runOps [Op.move 2 (some 45) (some 30) (Except.ok ())]).2 ∧
    (appJointCfg.minAngle ≤ ({ angle := 0, targetAngle := 45, targetSpeed := 30 } : JCState).targetAngle ∧
      ({ angle := 0, targetAngle := 45, targetSpeed := 30 } : JCState).targetAngle ≤ appJointCfg.maxAngle) :=
  ⟨by decide,
   commanded_angle_in_bounds [Op.move 2 (some 45) (some 30) (Except.ok ())]
     { angle := 0, targetAngle := 45, targetSpeed := 30 } (by decide) (by decide)⟩

/-! ## Commit-on-acknowledgment (C4) and stop (C5) -/

/-- C4: for an in-bounds move on a known joint, the commanded state becomes
`(angle, speed)` exactly when the backend acknowledges; on rejection every
joint keeps its commanded state and the backend error is surfaced. -/
theorem moveTo_commits_on_ack (js : List JCState) (j : Nat) (a sp : Int) (e : String)
    (hj : j < js.length)
    (ha : angleInputValid appJointCfg (some a) = true)
    (hs : speedInputValid appJointCfg (some sp) = true) :
    sysMoveTo js j (some a) (some sp) (Except.ok ()) =
      ⟨js.set j { js[j] with targetAngle := a, targetSpeed := sp }, true, none⟩ ∧
    sysMoveTo js j (some a) (some sp) (Except.error e) = ⟨js, true, some e⟩ := by
  constructor
  · unfold sysMoveTo
    rw [dif_pos hj]
    unfold submitMove
    rw [ha, hs]
    rfl
  · unfold sysMoveTo
    rw [dif_pos hj]
    unfold submitMove
    rw [ha, hs]
    simp [moveTo, set_get_self js j hj]

/-- Witness for C4: `move_to(2, 45, 30)` from startup commits `(45, 30)` on
acknowledgment and is a state no-op (error surfaced) on rejection. -/
theorem moveTo_commits_on_ack_witness :
    sysMoveTo (List.replicate numJoints initJC) 2 (some 45) (some 30) (Except.ok ()) =
      ⟨(List.replicate numJoints initJC).set 2
        { (List.replicate numJoints initJC)[2] with targetAngle := 45, targetSpeed := 30 },
        true, none⟩ ∧
    sysMoveTo (List.replicate numJoints initJC) 2 (some 45) (some 30)
        (Except.error "backend rejected") =
      ⟨List.replicate numJoints initJC, true, some "backend rejected"⟩ :=
  moveTo_commits_on_ack (List.replicate numJoints initJC) 2 45 30 "backend rejected"
    (by decide) (by decide) (by decide)

/-- C5: `stop(j)` on a known joint always reaches the backend — the dispatch
function never inspects `moving`, so it is not rejected for an idle joint —
and on acknowledgment the commanded angle and speed both become 0,
whatever the prior state. -/
theorem stop_unguarded (js : List JCState) (j : Nat) (resp : Except String Unit)
    (hj : j < js.length) :
    (sysStop js j resp).contacted = true ∧
    sysStop js j (Except.ok ()) =
      ⟨js.set j { js[j] with targetAngle := 0, targetSpeed := 0 }, true, none⟩ := by
  constructor
  · unfold sysStop
    rw [dif_pos hj]
    cases resp <;> rfl
  · unfold sysStop
    rw [dif_pos hj]
    rfl

/-- Witness for C5 on an idle joint (`moving = false` in the startup state):
the stop is dispatched and zeroes the commanded state.  (It is already 0
here, which is exactly the idle case the STOP button would have blocked.) -/
theorem stop_unguarded_witness :
    moving initJC = false ∧
    ((sysStop (List.replicate numJoints initJC) 1 (Except.error "backend down")).contacted = true ∧
      sysStop (List.replicate numJoints initJC) 1 (Except.ok ()) =
        ⟨(List.replicate numJoints initJC).set 1
          { (List.replicate numJoints initJC)[1] with targetAngle := 0, targetSpeed := 0 },
          true, none⟩) :=
  ⟨by decide,
   stop_unguarded (List.replicate numJoints initJC) 1 (Except.error "backend down") (by decide)⟩

/-! ## Telemetry length handling (C3) -/

/-- C3 counterexample: a fetched array of length 3 (≠ 6) is NOT discarded —
the callback writes its three elements over joints 0..2, a partial update,
so `measured_angle` does not stay unchanged. -/
theorem getAngles_no_length_check_cex :
    ([1, 2, 3] : List Int).length ≠ numJoints ∧
    getAnglesStep (List.replicate numJoints 0) (PollResult.arr [1, 2, 3]) ≠
      List.replicate numJoints 0 ∧
    getAnglesStep (List.replicate numJoints 0) (PollResult.arr [1, 2, 3]) =
      [1, 2, 3, 0, 0, 0] := by
  decide

/-- C3 amended: the `get_angles` callback checks only `Array.isArray`, never
the length.  An array result is applied elementwise whatever its length —
indices it covers are overwritten, later joints keep their old values (a
partial update), and an over-long array extends the state.  A result of the
correct length (6) therefore replaces all six measured angles in one batch,
and a non-array result or a rejected fetch leaves every measured angle
unchanged. -/
theorem getAngles_update (angles xs ys : List Int) (h : xs.length = angles.length) :
    getAnglesStep angles (PollResult.arr xs) = xs ∧
    getAnglesStep angles (PollResult.arr ys) = ys ++ angles.drop ys.length ∧
    getAnglesStep angles PollResult.nonArray = angles ∧
    getAnglesStep angles PollResult.rejected = angles := by
  refine ⟨?_, ?_, rfl, rfl⟩
  · show forEachWrite angles xs = xs
    rw [forEachWrite_eq_append, h, List.drop_length, List.append_nil]
  · exact forEachWrite_eq_append ys angles

/-- Witness for C3's amended statement: a length-6 fetch replaces all six
angles; a length-3 fetch performs the partial update `[1,2,3,0,0,0]`. -/
theorem getAngles_update_witness :
    getAnglesStep (List.replicate numJoints 0) (PollResult.arr [4, 5, 6, 7, 8, 9]) =
      [4, 5, 6, 7, 8, 9] ∧
    getAnglesStep (List.replicate numJoints 0) (PollResult.arr [1, 2, 3]) =
      [1, 2, 3] ++ (List.replicate numJoints (0 : Int)).drop ([1, 2, 3] : List Int).length ∧
    getAnglesStep (List.replicate numJoints 0) PollResult.nonArray =
      List.replicate numJoints 0 ∧
    getAnglesStep (List.replicate numJoints 0) PollResult.rejected =
      List.replicate numJoints 0 :=
  getAngles_update (List.replicate numJoints 0) [4, 5, 6, 7, 8, 9] [1, 2, 3] (by decide)

/-! ## Session model of App.svelte (C6, C8) -/

/-- One backend invocation as observed by the transport, with the outcome
the frontend handler saw where the handler branches on it. -/
inductive BCall where
  | isConnected (result : Bool)
  | connect (ok : Bool)
  | init (ok : Bool)
  | disconnect
  | getAngles
  | getPosition
  | calibrateReq (mask : Nat)
deriving Repr, DecidableEq

/-- The reactive variables of `App.svelte`, plus whether the polling interval
installed by `init`'s success handler is running. -/
structure AppState where
  connected : Bool := false
  initialized : Bool := false
  pollerActive : Bool := false
deriving Repr, DecidableEq

/-- The catch handler of `init` in `App.svelte` (lines 56-59): `window.alert(e)`,
then `invoke("disconnect")` and `connected = false`.  No retry is ever
scheduled (third component `none`). -/
def appInitFailure (s : AppState) : AppState × List BCall × Option Nat :=
  ({ s with connected := false }, [BCall.disconnect], none)

/-- The catch handler of `init` in the first part_000 variant (lines 44-48):
`console.error(e); setTimeout(init, 1000)`.  The session state is left as it
is and a retry of `init` is scheduled after a fixed 1000 ms (no disconnect,
nothing shown to the user). -/
def legacyInitFailure (s : AppState) : AppState × List BCall × Option Nat :=
  (s, [], some 1000)

/-- Function `init()` in `App.svelte` (lines 36-60): invoke `init`; on success set
`initialized = true` and install the `get_angles` interval; on failure run
the catch handler above. -/
def runInit (s : AppState) (ok : Bool) : AppState × List BCall :=
  if ok then ({ s with initialized := true, pollerActive := true }, [BCall.init true])
  else ((appInitFailure s).1, BCall.init false :: (appInitFailure s).2.1)

/-- External events driving `App.svelte`: the startup `is_connected` probe
(running `init` when already connected), a click on Connect (running `init`
on success), and one tick of the polling interval. -/
inductive AppEv where
  | startup (isConn : Bool) (initOk : Bool)
  | connectClick (connOk : Bool) (initOk : Bool)
  | tick

def appStep (s : AppState) (e : AppEv) : AppState × List BCall :=
  match e with
  | .startup isConn initOk =>
    if isConn then
      let r := runInit { s with connected := true } initOk
      (r.1, BCall.isConnected isConn :: r.2)
    else ({ s with connected := false }, [BCall.isConnected isConn])
  | .connectClick connOk initOk =>
    if connOk then
      let r := runInit { s with connected := true } initOk
      (r.1, BCall.connect true :: r.2)
    else (s, [BCall.connect false])
  | .tick => if s.pollerActive then (s, [BCall.getAngles]) else (s, [])

def appRun : AppState × List BCall → List AppEv → AppState × List BCall
  | sl, [] => sl
  | (s, log), e :: es => appRun ((appStep s e).1, log ++ (appStep s e).2) es

/-- Invocation log of one `App.svelte` run from startup. -/
def appRunLog (es : List AppEv) : List BCall := (appRun ({}, []) es).2

/-- Every prefix of the log that contains a telemetry fetch already contains
a successful `init` invocation. -/
def fetchAfterInit (log : List BCall) : Prop :=
  ∀ n, BCall.getAngles ∈ log.take n → BCall.init true ∈ log.take n

theorem fetchAfterInit_append_noFetch (log new : List BCall)
    (h2 : fetchAfterInit log) (hn : BCall.getAngles ∉ new) :
    fetchAfterInit (log ++ new) := by
  intro n hmem
  rw [List.take_append_eq_append_take] at hmem ⊢
  rcases List.mem_append.mp hmem with h | h
  · exact List.mem_append.mpr (Or.inl (h2 n h))
  · exact absurd (List.take_subset _ _ h) hn

theorem fetchAfterInit_append_hasInit (log new : List BCall)
    (h2 : fetchAfterInit log) (hi : BCall.init true ∈ log) :
    fetchAfterInit (log ++ new) := by
  intro n hmem
  rw [List.take_append_eq_append_take] at hmem ⊢
  rcases List.mem_append.mp hmem with h | h
  · exact List.mem_append.mpr (Or.inl (h2 n h))
  · have hlen : log.length < n := by
      by_contra hc
      push_neg at hc
      rw [Nat.sub_eq_zero_of_le hc] at h
      simp at h
    rw [List.take_of_length_le (Nat.le_of_lt hlen)]
    exact List.mem_append.mpr (Or.inl hi)

theorem appStep_preserves (s : AppState) (log : List BCall) (e : AppEv)
    (h1 : s.pollerActive = true → BCall.init true ∈ log)
    (h2 : fetchAfterInit log) :
    ((appStep s e).1.pollerActive = true → BCall.init true ∈ log ++ (appStep s e).2) ∧
    fetchAfterInit (log ++ (appStep s e).2) := by
  cases e with
  | startup isConn initOk =>
    cases isConn with
    | false =>
      refine ⟨fun hp => List.mem_append.mpr (Or.inl (h1 hp)), ?_⟩
      exact fetchAfterInit_append_noFetch log _ h2 (by simp [appStep])
    | true =>
      cases initOk with
      | true =>
        refine ⟨fun _ => List.mem_append.mpr (Or.inr ?_), ?_⟩
        · simp [appStep, runInit]
        · exact fetchAfterInit_append_noFetch log _ h2 (by simp [appStep, runInit])
      | false =>
        refine ⟨fun hp => List.mem_append.mpr (Or.inl (h1 hp)), ?_⟩
        exact fetchAfterInit_append_noFetch log _ h2
          (by simp [appStep, runInit, appInitFailure])
  | connectClick connOk initOk =>
    cases connOk with
    | false =>
      refine ⟨fun hp => List.mem_append.mpr (Or.inl (h1 hp)), ?_⟩
      exact fetchAfterInit_append_noFetch log _ h2 (by simp [appStep])
    | true =>
      cases initOk with
      | true =>
        refine ⟨fun _ => List.mem_append.mpr (Or.inr ?_), ?_⟩
        · simp [appStep, runInit]
        · exact fetchAfterInit_append_noFetch log _ h2 (by simp [appStep, runInit])
      | false =>
        refine ⟨fun hp => List.mem_append.mpr (Or.inl (h1 hp)), ?_⟩
        exact fetchAfterInit_append_noFetch log _ h2
          (by simp [appStep, runInit, appInitFailure])
  | tick =>
    by_cases hp : s.pollerActive = true
    · constructor
      · intro _
        exact List.mem_append.mpr (Or.inl (h1 hp))
      · exact fetchAfterInit_append_hasInit log _ h2 (h1 hp)
    · have hpf : s.pollerActive = false := by
        cases hpa : s.pollerActive
        · rfl
        · exact absurd hpa hp
      have hstep : appStep s .tick = (s, []) := by
        simp [appStep, hpf]
      rw [hstep]
      simp only [List.append_nil]
      exact ⟨h1, h2⟩

theorem appRun_inv (es : List AppEv) :
    ∀ sl : AppState × List BCall,
      (sl.1.pollerActive = true → BCall.init true ∈ sl.2) → fetchAfterInit sl.2 →
      ((appRun sl es).1.pollerActive = true → BCall.init true ∈ (appRun sl es).2) ∧
        fetchAfterInit (appRun sl es).2 := by
  induction es with
  | nil => intro sl h1 h2; exact ⟨h1, h2⟩
  | cons e rest ih =>
    intro sl h1 h2
    have hstep := appStep_preserves sl.1 sl.2 e h1 h2
    exact ih ((appStep sl.1 e).1, sl.2 ++ (appStep sl.1 e).2) hstep.1 hstep.2

/-! ## C6: polling only while Ready -/

/-- Polling period of the second part_000 variant (`setInterval(..., 20)`). -/
def legacyV2IntervalMs : Nat := 20

/-- The second part_000 variant (lines 112-123 of the concatenated file):
its script installs the 20 ms `get_position` interval unconditionally at
load.  `connect` and `init` are never invoked anywhere in that script, so
its backend-call trace after `ticks` timer firings is just that many
`get_position` fetches. -/
def legacyV2Calls (ticks : Nat) : List BCall :=
  List.replicate ticks BCall.getPosition

/-- C6 counterexample: in the unconditional-polling variant a telemetry
fetch is issued on the very first tick of a run in which the session was
never connected nor initialized (no `connect`, no `init`, no `is_connected`
ever reaches the backend), and no error is signaled in its place. -/
theorem unconditional_poll_cex :
    legacyV2Calls 1 = [BCall.getPosition] ∧
    BCall.init true ∉ legacyV2Calls 1 ∧
    BCall.init false ∉ legacyV2Calls 1 ∧
    BCall.connect true ∉ legacyV2Calls 1 ∧
    BCall.connect false ∉ legacyV2Calls 1 ∧
    BCall.isConnected true ∉ legacyV2Calls 1 ∧
    BCall.isConnected false ∉ legacyV2Calls 1 := by
  decide

/-- C6 amended: in the final variant (`App.svelte`) the polling interval is
installed only inside `init`'s success handler, so in every run and at every
point of its invocation log, a `get_angles` fetch can only appear after a
successful `init` invocation.  (The earlier part_000 variant polls
unconditionally, and no variant signals an error for out-of-state use.) -/
theorem telemetry_only_after_init (es : List AppEv) (n : Nat)
    (h : BCall.getAngles ∈ (appRunLog es).take n) :
    BCall.init true ∈ (appRunLog es).take n := by
  have hinv := appRun_inv es ({}, [])
    (fun hp => by simp [AppState.pollerActive] at hp)
    (fun m hm => by simp at hm)
  exact hinv.2 n h

/-- Witness for C6's amended statement: after a startup that finds the
backend connected and initializes successfully, the first tick's fetch is
preceded by the successful init in the log. -/
theorem telemetry_only_after_init_witness :
    BCall.init true ∈ (appRunLog [AppEv.startup true true, AppEv.tick]).take 3 :=
  telemetry_only_after_init [AppEv.startup true true, AppEv.tick] 3 (by decide)

/-! ## C7: in-flight fetches -/

/-- Timer / completion events of the polling interval in `App.svelte`
(lines 43-54). -/
inductive PollerEv where
  | tick
  | resolve
deriving Repr, DecidableEq

/-- The interval callback is `() => { invoke("get_angles").then(...).catch(...) }`:
every tick starts a fetch — nothing in the callback tests whether an earlier
fetch is still outstanding — and each completion (then or catch handler)
retires one. -/
def pollerStep (inFlight : Nat) (e : PollerEv) : Nat :=
  match e with
  | .tick => inFlight + 1
  | .resolve => inFlight - 1

def pollerRun (start : Nat) (es : List PollerEv) : Nat := es.foldl pollerStep start

/-- C7 counterexample: two ticks with no completion in between leave two
fetches in flight — the second tick is not skipped, so the at-most-one
in-flight bound fails. -/
theorem poll_overlap_cex :
    pollerRun 0 [PollerEv.tick, PollerEv.tick] = 2 ∧
    ¬ pollerRun 0 [PollerEv.tick, PollerEv.tick] ≤ 1 := by
  decide

/-- C7 amended: the interval has no overlap guard — every tick issues a
fetch even while earlier ones are outstanding, so `n` consecutive ticks
without a completion add `n` concurrent in-flight fetches. -/
theorem poll_no_overlap_guard (start n : Nat) :
    pollerRun start (List.replicate n PollerEv.tick) = start + n := by
  induction n generalizing start with
  | zero => rfl
  | succ m ih =>
    rw [List.replicate_succ]
    show pollerRun (start + 1) (List.replicate m PollerEv.tick) = start + (m + 1)
    rw [ih (start + 1)]
    omega

/-! ## C8: init-failure policy -/

/-- C8 counterexample: on the same failing `initialize()`, the final
variant's handler disconnects, surfaces the error and schedules no retry,
while the first part_000 variant's handler keeps the session state and
schedules an automatic retry in 1000 ms — two different policies inside one
program. -/
theorem init_failure_policies_mixed_cex :
    (appInitFailure { connected := true }).1.connected = false ∧
    (appInitFailure { connected := true }).2.1 = [BCall.disconnect] ∧
    (appInitFailure { connected := true }).2.2 = none ∧
    (legacyInitFailure { connected := true }).1.connected = true ∧
    (legacyInitFailure { connected := true }).2.2 = some 1000 ∧
    appInitFailure { connected := true } ≠ legacyInitFailure { connected := true } := by
  decide

/-- C8 amended: each variant applies its own policy consistently — the final
variant always falls back to Disconnected (alert + `disconnect`, no retry),
the earlier variant always schedules a 1000 ms retry (no disconnect, no
alert) — but the two policies coexist in the program and differ on every
state. -/
theorem init_failure_policies (s : AppState) :
    appInitFailure s = ({ s with connected := false }, [BCall.disconnect], none) ∧
    legacyInitFailure s = (s, [], some 1000) ∧
    (appInitFailure s).2 ≠ (legacyInitFailure s).2 := by
  refine ⟨rfl, rfl, ?_⟩
  simp [appInitFailure, legacyInitFailure]

/-! ## C9: calibrate -/

/-- The mask the Calibrate All button passes:
`invoke("calibrate", { joints: 0b111111 })` (App.svelte line 68). -/
def appCalibrateMask : Nat := 0b111111

/-- Modelled from the spec: the `calibrate` command handler lives in the
Tauri backend, which is not under src/ — src contains only its caller, the
Calibrate All button.  Spec §4.3: `joint_mask` is a bitset selecting one or
more joints (bit i ⇒ joint i); the call fails if the mask selects no joints
or references an out-of-range index, and otherwise submits a single
calibration request covering all selected joints.  The result pairs the
caller-visible outcome with the list of submitted backend requests (empty on
validation failure: the backend is not contacted). -/
def calibrate (mask : Nat) : Except String Unit × List BCall :=
  if mask = 0 then (Except.error "mask selects no joints", [])
  else if 2 ^ numJoints ≤ mask then (Except.error "mask references an out-of-range joint", [])
  else (Except.ok (), [BCall.calibrateReq mask])

/-- C9: `calibrate 0` fails with no backend request; a mask with a set bit
at a position ≥ 6 fails with no backend request; any other non-zero mask
submits exactly one calibration request carrying the whole mask. -/
theorem calibrate_validates (mask0 maskHi maskOk i : Nat)
    (h0 : mask0 = 0) (hi : numJoints ≤ i) (hbit : maskHi.testBit i = true)
    (hne : maskOk ≠ 0) (hlt : maskOk < 2 ^ numJoints) :
    calibrate mask0 = (Except.error "mask selects no joints", []) ∧
    calibrate maskHi = (Except.error "mask references an out-of-range joint", []) ∧
    calibrate maskOk = (Except.ok (), [BCall.calibrateReq maskOk]) := by
  refine ⟨by rw [h0]; rfl, ?_, ?_⟩
  · have hge : 2 ^ numJoints ≤ maskHi := by
      calc 2 ^ numJoints ≤ 2 ^ i := Nat.pow_le_pow_right (by norm_num) hi
        _ ≤ maskHi := Nat.testBit_implies_ge hbit
    have hz : maskHi ≠ 0 := by
      intro hzero
      rw [hzero] at hge
      exact absurd hge (by decide)
    unfold calibrate
    rw [if_neg hz, if_pos hge]
  · unfold calibrate
    rw [if_neg hne, if_neg (Nat.not_le.mpr hlt)]

/-- Witness for C9: the empty mask and an out-of-range mask (bit 6 set)
fail; the app's own Calibrate All mask `0b111111` succeeds with one
request. -/
theorem calibrate_validates_witness :
    calibrate 0 = (Except.error "mask selects no joints", []) ∧
    calibrate 64 = (Except.error "mask references an out-of-range joint", []) ∧
    calibrate appCalibrateMask = (Except.ok (), [BCall.calibrateReq appCalibrateMask]) :=
  calibrate_validates 0 64 appCalibrateMask 6 rfl (by decide) (by decide)
    (by decide) (by decide)

/-! ## C10: the shadowed callback of part_000 -/

/-- The two bindings named `angles` that are in scope inside part_000's
`get_position` callback: the component's array (outer) and the callback
parameter. -/
structure PollEnv where
  outer : List Int
  param : List Int
deriving Repr, DecidableEq

/-- Name resolution inside the callback: `angles` denotes the innermost
binding, i.e. the parameter. -/
def readAngles (env : PollEnv) : List Int := env.param

def writeAngles (env : PollEnv) (v : List Int) : PollEnv := { env with param := v }

/-- The callback body of both part_000 variants:
`if (Array.isArray(angles)) { angles.forEach((angle, i) => { angles[i] = angle; }); }`
— every occurrence of `angles` resolves to the parameter, so the forEach
reads from and writes back into the fetched vector itself. -/
def legacyCallbackBody (env : PollEnv) (isArr : Bool) : PollEnv :=
  if isArr then writeAngles env (forEachWrite (readAngles env) (readAngles env))
  else env

/-- One completed `get_position` round trip in part_000 (either variant):
run the callback with the payload bound as the inner `angles`; the
component's array is whatever the environment holds for it afterwards.  A
rejected fetch only logs. -/
def legacyPollStep (outer : List Int) (r : PollResult) : List Int :=
  match r with
  | .arr xs => (legacyCallbackBody ⟨outer, xs⟩ true).outer
  | .nonArray => (legacyCallbackBody ⟨outer, []⟩ false).outer
  | .rejected => outer

/-- The component's displayed angles after a sequence of poll completions,
starting from `Array(JOINTS.length).fill(0)`. -/
def legacyMeasured (polls : List PollResult) : List Int :=
  polls.foldl legacyPollStep (List.replicate numJoints 0)

/-- C10: in both part_000 variants every poll leaves the outer angles array
unchanged — the writes land in the fetched vector itself (where they are
identity writes) — so the displayed measured angles stay at their initial
value 0 after any sequence of polls. -/
theorem legacy_shadowed_poll_frozen :
    (∀ (outer : List Int) (r : PollResult), legacyPollStep outer r = outer) ∧
    (∀ xs : List Int, forEachWrite xs xs = xs) ∧
    (∀ polls : List PollResult, legacyMeasured polls = List.replicate numJoints 0) := by
  have hstep : ∀ (outer : List Int) (r : PollResult), legacyPollStep outer r = outer := by
    intro outer r
    cases r <;> rfl
  have hfold : ∀ (polls : List PollResult) (a : List Int),
      polls.foldl legacyPollStep a = a := by
    intro polls
    induction polls with
    | nil => intro a; rfl
    | cons p ps ih =>
      intro a
      rw [List.foldl_cons, hstep a p]
      exact ih a
  refine ⟨hstep, ?_, fun polls => hfold polls _⟩
  intro xs
  rw [forEachWrite_eq_append, List.drop_length, List.append_nil]

end Cobot
